import Mathlib

/-!
Verification of the state-transition core of the tetris-rxjs repository.

The definitions below are a shallow embedding of the TypeScript sources:
the pure helper layer (src/generics.ts), the shape catalogue
(src/shapes.ts), the constants (src/constants.ts) and the game module
(game.ts: initialState, tick and its helpers, createGameAction,
holdAction, gameActions).  Cell coordinates are JS numbers used only with
integer arithmetic, so they are modelled as Int.  The two calls of the
random generator generateRandomBlock that can occur inside one transition
are modelled by two oracle parameters rnd1 and rnd2 that are passed to
the functions which, in the source, draw random blocks.
-/

namespace Tetris

/-- A cell position, the Position / CubePosition type of src/types.ts. -/
structure Pos where
  x : Int
  y : Int
deriving DecidableEq

/-- BlockPosition of src/types.ts: a list of cell positions. -/
abbrev BlockPosition := List Pos

/-- Block of src/types.ts: a possibly absent block (undefined becomes none). -/
abbrev Block := Option BlockPosition

/-- Constants.GRID_WIDTH of src/constants.ts. -/
def gridWidth : Nat := 10

/-- Constants.GRID_HEIGHT of src/constants.ts. -/
def gridHeight : Nat := 20

/-- Constants.SINGLE_ROW_FILL_SCORE of src/constants.ts. -/
def singleRowFillScore : Nat := 100

/-- moveDownLogic of src/generics.ts. -/
def moveDownLogic (pos : Pos) : Pos := ⟨pos.x, pos.y + 1⟩

/-- moveLeftLogic of src/generics.ts. -/
def moveLeftLogic (pos : Pos) : Pos := ⟨pos.x - 1, pos.y⟩

/-- moveRightLogic of src/generics.ts. -/
def moveRightLogic (pos : Pos) : Pos := ⟨pos.x + 1, pos.y⟩

/-- move of src/generics.ts: apply a move logic to every cube of a block. -/
def move (movelogic : Pos → Pos) (block : BlockPosition) : BlockPosition :=
  block.map movelogic

/-- hasObjectCollided of src/generics.ts. -/
def hasObjectCollided (moveLogic : Pos → Pos) (block : BlockPosition)
    (oldBlocks : List BlockPosition) : Bool :=
  oldBlocks.any fun oldObject =>
    oldObject.any fun oldPos => block.any fun pos => decide (moveLogic pos = oldPos)

/-- createMoveBlockAction of src/generics.ts. -/
def createMoveBlockAction (moveLogic : Pos → Pos) (boundaryCheck : Pos → Bool)
    (currentBlock : Block) (oldBlocks : List BlockPosition) : Block :=
  match currentBlock with
  | none => none
  | some cb =>
    if cb.any boundaryCheck || hasObjectCollided moveLogic cb oldBlocks then some cb
    else some (move moveLogic cb)

/-- moveBlockDown of src/generics.ts. -/
def moveBlockDown : Block → List BlockPosition → Block :=
  createMoveBlockAction moveDownLogic fun cubePos => decide (cubePos.y + 1 ≥ (gridHeight : Int))

/-- moveBlockLeft of src/generics.ts. -/
def moveBlockLeft : Block → List BlockPosition → Block :=
  createMoveBlockAction moveLeftLogic fun cubePos => decide (cubePos.x - 1 < 0)

/-- moveBlockRight of src/generics.ts. -/
def moveBlockRight : Block → List BlockPosition → Block :=
  createMoveBlockAction moveRightLogic fun cubePos => decide (cubePos.x + 1 ≥ (gridWidth : Int))

/-- The fold computing the coordinate sums of a block, used by rotate of
src/generics.ts (its reduce over the block with initial value the origin). -/
def blockSum (object : BlockPosition) : Pos :=
  object.foldl (fun sum pos => ⟨sum.x + pos.x, sum.y + pos.y⟩) ⟨0, 0⟩

/-- The adjusted rotation center computed inside rotate of src/generics.ts.
Math.floor of the JS division is Int.fdiv, and the JS remainder operator on
possibly negative numbers is Int.tmod. -/
def adjustedCenter (object : BlockPosition) : Pos :=
  let centerX := (blockSum object).x.fdiv (object.length : Int)
  let centerY := (blockSum object).y.fdiv (object.length : Int)
  ⟨if centerX.tmod 2 = 0 then centerX else centerX + 1,
   if centerY.tmod 2 = 1 then centerY else centerY + 1⟩

/-- rotate of src/generics.ts. -/
def rotate (object : BlockPosition) (rotateLogic : Pos → Pos → Pos) : BlockPosition :=
  object.map fun pos => rotateLogic pos (adjustedCenter object)

/-- rotateClockwiseLogic of src/generics.ts. -/
def rotateClockwiseLogic (pos center : Pos) : Pos :=
  ⟨center.x - pos.y + center.y, center.y + pos.x - center.x⟩

/-- rotateAntiClockwiseLogic of src/generics.ts. -/
def rotateAntiClockwiseLogic (pos center : Pos) : Pos :=
  ⟨center.x + pos.y - center.y, center.y - pos.x + center.x⟩

/-- hasObjectCollidedDown of src/generics.ts. -/
def hasObjectCollidedDown (block : BlockPosition) (oldObjects : List BlockPosition) : Bool :=
  hasObjectCollided moveDownLogic block oldObjects

/-- hasObjectCollidedLeft of src/generics.ts. -/
def hasObjectCollidedLeft (block : BlockPosition) (oldObjects : List BlockPosition) : Bool :=
  hasObjectCollided moveLeftLogic block oldObjects

/-- hasObjectCollidedRight of src/generics.ts. -/
def hasObjectCollidedRight (block : BlockPosition) (oldObjects : List BlockPosition) : Bool :=
  hasObjectCollided moveRightLogic block oldObjects

/-- createRotateBlockAction of src/generics.ts. -/
def createRotateBlockAction (rotateLogic : BlockPosition → BlockPosition)
    (currentBlock : Block) (oldBlocks : List BlockPosition) : Block :=
  match currentBlock with
  | none => none
  | some cb =>
    let rotatedBlock := rotateLogic cb
    if rotatedBlock.any (fun cubePos =>
          decide (cubePos.x < 0) || decide (cubePos.x ≥ (gridWidth : Int)) ||
          decide (cubePos.y < 0) || decide (cubePos.y ≥ (gridHeight : Int)))
        || hasObjectCollidedDown rotatedBlock oldBlocks
        || hasObjectCollidedLeft rotatedBlock oldBlocks
        || hasObjectCollidedRight rotatedBlock oldBlocks then
      some cb
    else
      some rotatedBlock

/-- rotateBlockClockwise of src/generics.ts. -/
def rotateBlockClockwise : Block → List BlockPosition → Block :=
  createRotateBlockAction fun block => rotate block rotateClockwiseLogic

/-- rotateBlockAntiClockwise of src/generics.ts. -/
def rotateBlockAntiClockwise : Block → List BlockPosition → Block :=
  createRotateBlockAction fun block => rotate block rotateAntiClockwiseLogic

/-- hasBlockReachedBottom of src/generics.ts. -/
def hasBlockReachedBottom (blockPos : BlockPosition) : Bool :=
  blockPos.any fun cubePos => decide (cubePos.y ≥ (gridHeight : Int) - 1)

/-- dropBlocksAboveClearedRows of src/generics.ts. -/
def dropBlocksAboveClearedRows (oldBlocks : List BlockPosition)
    (clearedRows : List Int) : List BlockPosition :=
  oldBlocks.map fun block =>
    block.map fun cube =>
      let rowsClearedBelow := (clearedRows.filter fun row => decide (row > cube.y)).length
      if rowsClearedBelow > 0 then ⟨cube.x, cube.y + (rowsClearedBelow : Int)⟩ else cube

/-- calculateRows of src/generics.ts: bucket the cubes of all blocks by row. -/
def calculateRows (oldBlocks : List BlockPosition) : List (List Pos) :=
  (List.range gridHeight).map fun index =>
    oldBlocks.foldl (fun row block => row ++ block.filter fun cube => decide (cube.y = (index : Int))) []

/-- findFullRows of src/generics.ts: map each row to its index when full,
otherwise -1, then drop the -1 entries. -/
def findFullRows (rows : List (List Pos)) : List Int :=
  ((List.range rows.length).map fun index =>
    if (rows.getD index []).length = gridWidth then (index : Int) else -1).filter
    fun index => decide (index ≠ -1)

/-- removeCubesInFullRows of src/generics.ts. -/
def removeCubesInFullRows (oldBlocks : List BlockPosition)
    (fullRows : List Int) : List BlockPosition :=
  oldBlocks.map fun block => block.filter fun cubePos => !(fullRows.contains cubePos.y)

/-- removeEmptyBlocks of src/generics.ts. -/
def removeEmptyBlocks (blocks : List BlockPosition) : List BlockPosition :=
  blocks.filter fun block => decide (block.length > 0)

/-- clearFullRows of src/generics.ts. -/
def clearFullRows (oldBlocks : List BlockPosition) (score : Nat) :
    List BlockPosition × Nat :=
  let rows := calculateRows oldBlocks
  let fullRows := findFullRows rows
  if fullRows.length = 0 then (oldBlocks, score)
  else
    (dropBlocksAboveClearedRows (removeEmptyBlocks (removeCubesInFullRows oldBlocks fullRows)) fullRows,
     score + fullRows.length * singleRowFillScore)

/-- hasBlockReachedTop of src/generics.ts. -/
def hasBlockReachedTop (oldBlocks : List BlockPosition) : Bool :=
  oldBlocks.any fun block => block.any fun cubePos => decide (cubePos.y = 0)

/-- holdCurrentBlock of src/generics.ts. -/
def holdCurrentBlock (currentBlock holdBlock : Block) : Block × Block :=
  match currentBlock, holdBlock with
  | none, _ => (none, holdBlock)
  | some cb, none => (none, some cb)
  | some cb, some hb => (some hb, some cb)

/-- generateBlock of src/generics.ts.  The source draws generateRandomBlock
once for the new next block and, when there is no next block, once for the
new current block; the two draws are passed here as the oracle parameters
rnd1 (used only when nextBlock is absent) and rnd2. -/
def generateBlock (nextBlock : Block) (rnd1 rnd2 : BlockPosition) :
    BlockPosition × BlockPosition :=
  (nextBlock.getD rnd1, rnd2)

/-- setCurrentBlock of src/generics.ts. -/
def setCurrentBlock (currentBlock nextBlock : Block) (rnd1 rnd2 : BlockPosition) :
    Block × Block :=
  match currentBlock with
  | some cb => (some cb, nextBlock)
  | none =>
    let g := generateBlock nextBlock rnd1 rnd2
    (some g.1, some g.2)

/-- The State record of src/types.ts (the final variant, without tickRate). -/
structure GameState where
  gameEnd : Bool
  currentBlock : Block
  nextBlock : Block
  holdBlock : Block
  oldBlocks : List BlockPosition
  score : Nat
  highScore : Nat
deriving DecidableEq

/-- initialState of game.ts. -/
def initialState : GameState :=
  { gameEnd := false
    currentBlock := none
    nextBlock := none
    holdBlock := none
    oldBlocks := []
    score := 0
    highScore := 0 }

/-- hasBlockLanded of game.ts. -/
def hasBlockLanded (currentBlock : Block) (oldBlocks : List BlockPosition) : Bool :=
  match currentBlock with
  | none => true
  | some cb => hasBlockReachedBottom cb || hasObjectCollidedDown cb oldBlocks

/-- restartGame of game.ts. -/
def restartGame (state : GameState) : GameState :=
  { initialState with
    highScore := max state.highScore state.score
    gameEnd := true }

/-- updateStateAfterLanding of game.ts. -/
def updateStateAfterLanding (rnd1 rnd2 : BlockPosition) (state : GameState) : GameState :=
  let cleared := clearFullRows state.oldBlocks state.score
  let generated := generateBlock state.nextBlock rnd1 rnd2
  { state with
    currentBlock := some generated.1
    nextBlock := some generated.2
    oldBlocks := cleared.1 ++ (match state.currentBlock with
      | some cb => [cb]
      | none => [])
    score := cleared.2 }

/-- moveCurrentBlockDown of game.ts (note that it moves the block against
the old blocks from before the clearing step, as the source does). -/
def moveCurrentBlockDown (state : GameState) (newBlocks : List BlockPosition)
    (newScore : Nat) : GameState :=
  { state with
    currentBlock := moveBlockDown state.currentBlock state.oldBlocks
    oldBlocks := newBlocks
    score := newScore }

/-- tick of game.ts. -/
def tick (rnd1 rnd2 : BlockPosition) (state : GameState) : GameState :=
  let cleared := clearFullRows state.oldBlocks state.score
  if hasBlockReachedTop cleared.1 then restartGame state
  else if hasBlockLanded state.currentBlock cleared.1 then
    updateStateAfterLanding rnd1 rnd2 state
  else moveCurrentBlockDown state cleared.1 cleared.2

/-- The Event type of src/types.ts. -/
inductive GameEvent where
  | Left
  | Right
  | Down
  | RotateClockwise
  | RotateAntiClockwise
  | Hold
  | Tick
deriving DecidableEq

/-- createGameAction of game.ts: a returned block replaces the current
block, an undefined result leaves the state unchanged. -/
def createGameAction (action : Block → List BlockPosition → Block)
    (s : GameState) : GameState :=
  match action s.currentBlock s.oldBlocks with
  | some newBlock => { s with currentBlock := some newBlock }
  | none => s

/-- holdAction of game.ts. -/
def holdAction (rnd1 rnd2 : BlockPosition) (state : GameState) : GameState :=
  let held := holdCurrentBlock state.currentBlock state.holdBlock
  let setC := setCurrentBlock held.1 state.nextBlock rnd1 rnd2
  { state with
    currentBlock := setC.1
    nextBlock := setC.2
    holdBlock := held.2 }

/-- gameActions of game.ts, as one dispatch function over the event. -/
def gameActions (event : GameEvent) (rnd1 rnd2 : BlockPosition)
    (s : GameState) : GameState :=
  match event with
  | .Left => createGameAction moveBlockLeft s
  | .Right => createGameAction moveBlockRight s
  | .Down => createGameAction moveBlockDown s
  | .RotateClockwise => createGameAction rotateBlockClockwise s
  | .RotateAntiClockwise => createGameAction rotateBlockAntiClockwise s
  | .Hold => holdAction rnd1 rnd2 s
  | .Tick => tick rnd1 rnd2 s

/-- The shape table of generateRandomBlock in src/shapes.ts, indexed by the
shape type (0 to 6) and the random horizontal offset. -/
def generateRandomBlockShape (shapeType : Nat) (randomX : Int) : BlockPosition :=
  match shapeType with
  | 0 => [⟨randomX, 0⟩, ⟨randomX + 1, 0⟩, ⟨randomX + 2, 0⟩, ⟨randomX + 3, 0⟩]
  | 1 => [⟨randomX, 0⟩, ⟨randomX + 1, 0⟩, ⟨randomX + 2, 0⟩, ⟨randomX + 2, 1⟩]
  | 2 => [⟨randomX, 0⟩, ⟨randomX + 1, 0⟩, ⟨randomX + 2, 0⟩, ⟨randomX, 1⟩]
  | 3 => [⟨randomX, 0⟩, ⟨randomX + 1, 0⟩, ⟨randomX, 1⟩, ⟨randomX + 1, 1⟩]
  | 4 => [⟨randomX, 1⟩, ⟨randomX + 1, 1⟩, ⟨randomX + 1, 0⟩, ⟨randomX + 2, 0⟩]
  | 5 => [⟨randomX, 0⟩, ⟨randomX + 1, 0⟩, ⟨randomX + 2, 0⟩, ⟨randomX + 1, 1⟩]
  | 6 => [⟨randomX, 0⟩, ⟨randomX + 1, 0⟩, ⟨randomX + 1, 1⟩, ⟨randomX + 2, 1⟩]
  | _ => []

/-- Modelled from the spec: the range of generateRandomBlock.  The util
module exporting randomInt is absent from src; spec section 4.1 specifies a
uniform integer shape index over the seven shapes and a spawn column such
that all four cells fit within the grid width, which matches
randomInt(0, GRID_WIDTH - 4) with inclusive bounds in src/shapes.ts. -/
def SpawnBlock (b : BlockPosition) : Prop :=
  ∃ shapeType : Nat, ∃ randomX : Int,
    shapeType ≤ 6 ∧ 0 ≤ randomX ∧ randomX ≤ (gridWidth : Int) - 4 ∧
    b = generateRandomBlockShape shapeType randomX

/-- The states reachable from initialState by the step function, with the
random draws of each step ranging over the generator range. -/
inductive Reachable : GameState → Prop where
  | init : Reachable initialState
  | step : ∀ (s : GameState) (e : GameEvent) (r1 r2 : BlockPosition),
      Reachable s → SpawnBlock r1 → SpawnBlock r2 → Reachable (gameActions e r1 r2 s)

/-! Specification-side definitions, used to state the claims in the words
of the spec rather than in the words of the code. -/

/-- A cell lies within the grid, spec section 3: within [0,W) x [0,H). -/
def InBoundsCell (c : Pos) : Prop :=
  0 ≤ c.x ∧ c.x < (gridWidth : Int) ∧ 0 ≤ c.y ∧ c.y < (gridHeight : Int)

instance (c : Pos) : Decidable (InBoundsCell c) := by
  unfold InBoundsCell; infer_instance

/-- Every cell of an optional block lies within the grid. -/
def InBoundsOpt (b : Block) : Prop := ∀ c ∈ b.getD [], InBoundsCell c

/-- Every cell stored anywhere in a state lies within the grid. -/
def StateInBounds (s : GameState) : Prop :=
  (∀ c ∈ s.oldBlocks.flatten, InBoundsCell c) ∧
    InBoundsOpt s.currentBlock ∧ InBoundsOpt s.nextBlock ∧ InBoundsOpt s.holdBlock

/-- The number of settled cells lying in row y. -/
def rowCount (y : Int) (blocks : List BlockPosition) : Nat :=
  blocks.flatten.countP fun c => decide (c.y = y)

/-- The row a cell at row y is moved to by dropBlocksAboveClearedRows. -/
def shiftRow (fullRows : List Int) (y : Int) : Int :=
  y + ((fullRows.filter fun row => decide (row > y)).length : Int)

/-- The indices of the grid rows holding exactly gridWidth settled cells. -/
def fullRowIndices (blocks : List BlockPosition) : List Nat :=
  (List.range gridHeight).filter fun i => decide (rowCount (i : Int) blocks = gridWidth)

/-- The number of full rows strictly below row y (row index increasing
downward), by which a surviving cell at row y drops. -/
def dropDistance (blocks : List BlockPosition) (y : Int) : Nat :=
  ((fullRowIndices blocks).filter fun i => decide ((i : Int) > y)).length

/-- Spec section 4.3: a rotated block is accepted exactly when every
rotated cell lies within the grid and the rotated block passes the down,
left and right collision checks against the settled cells. -/
def ValidRotation (rotatedBlock : BlockPosition) (oldBlocks : List BlockPosition) : Prop :=
  (∀ p ∈ rotatedBlock, InBoundsCell p) ∧
    (∀ q ∈ oldBlocks.flatten, ∀ p ∈ rotatedBlock, moveDownLogic p ≠ q) ∧
    (∀ q ∈ oldBlocks.flatten, ∀ p ∈ rotatedBlock, moveLeftLogic p ≠ q) ∧
    (∀ q ∈ oldBlocks.flatten, ∀ p ∈ rotatedBlock, moveRightLogic p ≠ q)

instance (rotatedBlock : BlockPosition) (oldBlocks : List BlockPosition) :
    Decidable (ValidRotation rotatedBlock oldBlocks) := by
  unfold ValidRotation; infer_instance

/-- Translation of a block by a fixed offset. -/
def translateBlock (d : Pos) (b : BlockPosition) : BlockPosition :=
  b.map fun p => ⟨p.x + d.x, p.y + d.y⟩

/-! A step of the game together with the two random draws of that step,
used to exhibit concrete reachable states. -/

/-- One step of a concrete run: an event and the shape type and column of
the two random draws of that step. -/
structure TraceEntry where
  event : GameEvent
  shape1 : Nat
  col1 : Int
  shape2 : Nat
  col2 : Int

/-- The draws of an entry lie in the range of the random generator. -/
def entryOK (p : TraceEntry) : Bool :=
  decide (p.shape1 ≤ 6) && decide (0 ≤ p.col1) && decide (p.col1 ≤ (gridWidth : Int) - 4) &&
    decide (p.shape2 ≤ 6) && decide (0 ≤ p.col2) && decide (p.col2 ≤ (gridWidth : Int) - 4)

/-- Apply one entry to a state. -/
def stepEntry (s : GameState) (p : TraceEntry) : GameState :=
  gameActions p.event (generateRandomBlockShape p.shape1 p.col1)
    (generateRandomBlockShape p.shape2 p.col2) s

/-- Run a list of entries from a state. -/
def runTrace (entries : List TraceEntry) (s : GameState) : GameState :=
  entries.foldl stepEntry s

/-- A tick whose draws are the O shape at column 0. -/
def tickO : TraceEntry := ⟨.Tick, 3, 0, 3, 0⟩

/-- A concrete run: an O block is dropped to the floor and held there, a
second O block is dropped onto the same columns and settles, a freshly
spawned block is then swapped with the held block, which reappears at the
bottom inside the settled cells, and the next tick commits it there. -/
def duplicateTrace : List TraceEntry :=
  [⟨.Tick, 3, 0, 3, 0⟩] ++ List.replicate 18 tickO ++ [⟨.Hold, 3, 0, 3, 4⟩] ++
    List.replicate 18 tickO ++
    [⟨.Tick, 3, 4, 3, 4⟩, ⟨.Hold, 3, 0, 3, 0⟩, ⟨.Tick, 3, 0, 3, 0⟩]

/-! Lemmas about the row bookkeeping of clearFullRows. -/

lemma calculateRows_length (blocks : List BlockPosition) :
    (calculateRows blocks).length = gridHeight := by
  simp [calculateRows]

lemma foldl_append_filter_length (bs : List BlockPosition) (p : Pos → Bool)
    (acc : List Pos) :
    (bs.foldl (fun row b => row ++ b.filter p) acc).length
      = acc.length + bs.flatten.countP p := by
  induction bs generalizing acc with
  | nil => simp
  | cons b t ih =>
    simp only [List.foldl_cons, ih, List.flatten_cons, List.countP_append,
      List.length_append, List.countP_eq_length_filter, List.filter_append]
    omega

lemma calculateRows_getD (blocks : List BlockPosition) (i : Nat) (hi : i < gridHeight) :
    ((calculateRows blocks).getD i []).length = rowCount (i : Int) blocks := by
  unfold calculateRows rowCount
  simp only [List.getD_eq_getElem?_getD, List.getElem?_map, List.getElem?_range hi,
    Option.map_some, Option.getD_some]
  simpa using foldl_append_filter_length blocks _ []

lemma filter_ne_negOne_map_ite (l : List Nat) (P : Nat → Prop) [DecidablePred P] :
    ((l.map fun i => if P i then (i : Int) else -1).filter fun r => decide (r ≠ -1))
      = (l.filter fun i => decide (P i)).map fun i : Nat => (i : Int) := by
  simp only [ne_eq, decide_not]
  induction l with
  | nil => rfl
  | cons a t ih =>
    by_cases hP : P a
    · have ha : ¬ ((a : Int) = -1) := by omega
      simp [hP, ih, ha]
    · simp [hP, ih]

lemma findFullRows_calculateRows (blocks : List BlockPosition) :
    findFullRows (calculateRows blocks)
      = (fullRowIndices blocks).map fun i : Nat => (i : Int) := by
  unfold findFullRows fullRowIndices
  rw [calculateRows_length,
    filter_ne_negOne_map_ite (List.range gridHeight)
      (fun i => ((calculateRows blocks).getD i []).length = gridWidth)]
  congr 1
  refine List.filter_congr fun i hi => ?_
  rw [List.mem_range] at hi
  rw [calculateRows_getD blocks i hi]

lemma mem_findFullRows (blocks : List BlockPosition) (y : Int) (h0 : 0 ≤ y)
    (h1 : y < (gridHeight : Int)) :
    y ∈ findFullRows (calculateRows blocks) ↔ rowCount y blocks = gridWidth := by
  rw [findFullRows_calculateRows]
  simp only [List.mem_map, fullRowIndices, List.mem_filter, List.mem_range,
    decide_eq_true_eq]
  constructor
  · rintro ⟨i, ⟨-, hfull⟩, rfl⟩
    exact hfull
  · intro hfull
    refine ⟨y.toNat, ⟨?_, ?_⟩, ?_⟩
    · omega
    · rwa [Int.toNat_of_nonneg h0]
    · omega

lemma findFullRows_nodup (blocks : List BlockPosition) :
    (findFullRows (calculateRows blocks)).Nodup := by
  rw [findFullRows_calculateRows]
  exact (((List.nodup_range gridHeight).filter _).map fun a b hab => by exact_mod_cast hab)

lemma findFullRows_mem_range (blocks : List BlockPosition) (r : Int)
    (hr : r ∈ findFullRows (calculateRows blocks)) :
    0 ≤ r ∧ r < (gridHeight : Int) := by
  rw [findFullRows_calculateRows] at hr
  simp only [List.mem_map, fullRowIndices, List.mem_filter, List.mem_range] at hr
  rcases hr with ⟨i, ⟨hi, -⟩, rfl⟩
  omega

/-! Lemmas reducing clearFullRows to one filter and one map on the flat
list of settled cells. -/

lemma flatten_dropBlocksAboveClearedRows (oldBlocks : List BlockPosition)
    (clearedRows : List Int) :
    (dropBlocksAboveClearedRows oldBlocks clearedRows).flatten
      = oldBlocks.flatten.map fun c => (⟨c.x, shiftRow clearedRows c.y⟩ : Pos) := by
  unfold dropBlocksAboveClearedRows
  have hcell : (fun cube : Pos =>
      let rowsClearedBelow := (clearedRows.filter fun row => decide (row > cube.y)).length
      if rowsClearedBelow > 0 then (⟨cube.x, cube.y + (rowsClearedBelow : Int)⟩ : Pos) else cube)
      = fun cube : Pos => (⟨cube.x, shiftRow clearedRows cube.y⟩ : Pos) := by
    funext cube
    by_cases hk : 0 < (clearedRows.filter fun row => decide (row > cube.y)).length
    · simp [hk, shiftRow]
    · have h0 : (clearedRows.filter fun row => decide (row > cube.y)).length = 0 := by omega
      simp [hk, shiftRow, h0]
  rw [hcell]
  exact Eq.symm (List.map_flatten _ oldBlocks)

lemma flatten_removeEmptyBlocks (blocks : List BlockPosition) :
    (removeEmptyBlocks blocks).flatten = blocks.flatten := by
  unfold removeEmptyBlocks
  induction blocks with
  | nil => rfl
  | cons b t ih =>
    by_cases hb : 0 < b.length
    · simp [hb, ih]
    · have h0 : b = [] := by
        cases b with
        | nil => rfl
        | cons x xs => simp at hb
      simp [h0, ih]

lemma flatten_removeCubesInFullRows (oldBlocks : List BlockPosition)
    (fullRows : List Int) :
    (removeCubesInFullRows oldBlocks fullRows).flatten
      = oldBlocks.flatten.filter fun c => !(fullRows.contains c.y) := by
  unfold removeCubesInFullRows
  exact Eq.symm (List.filter_flatten _ oldBlocks)

lemma clearFullRows_score (blocks : List BlockPosition) (score : Nat) :
    (clearFullRows blocks score).2
      = score + (findFullRows (calculateRows blocks)).length * singleRowFillScore := by
  unfold clearFullRows
  by_cases h : (findFullRows (calculateRows blocks)).length = 0
  · simp [h]
  · simp [h]

lemma flatten_clearFullRows (blocks : List BlockPosition) (score : Nat) :
    (clearFullRows blocks score).1.flatten
      = (blocks.flatten.filter fun c =>
          !((findFullRows (calculateRows blocks)).contains c.y)).map
          fun c => (⟨c.x, shiftRow (findFullRows (calculateRows blocks)) c.y⟩ : Pos) := by
  unfold clearFullRows
  by_cases h : (findFullRows (calculateRows blocks)).length = 0
  · have hnil : findFullRows (calculateRows blocks) = [] := List.eq_nil_of_length_eq_zero h
    simp only [h, hnil, shiftRow, if_true, List.contains_nil, Bool.not_false,
      List.filter_nil, List.length_nil, Nat.cast_zero, Int.add_zero]
    have hfe : (List.filter fun _ : Pos => true) = fun l => l :=
      funext fun l => List.filter_true l
    have hmk : (fun c : Pos => (⟨c.x, c.y⟩ : Pos)) = fun c => c := funext fun c => rfl
    rw [hfe, hmk]
    simp
  · simp only [h, if_false]
    rw [flatten_dropBlocksAboveClearedRows, flatten_removeEmptyBlocks,
      flatten_removeCubesInFullRows]

/-! Counting bounds on shiftRow, from the fact that the full rows form a
list of distinct row indices. -/

lemma filter_gt_length_le (l : List Int) (hnd : l.Nodup) (y1 y2 : Int)
    (h12 : y1 < y2) (h2 : y2 ∉ l) :
    ((l.filter fun r => decide (r > y1)).length : Int)
      ≤ (l.filter fun r => decide (r > y2)).length + (y2 - y1 - 1) := by
  have h1 : (l.filter fun r => decide (r > y1)).toFinset.card
      = (l.filter fun r => decide (r > y1)).length :=
    List.toFinset_card_of_nodup (hnd.filter _)
  have h2c : (l.filter fun r => decide (r > y2)).toFinset.card
      = (l.filter fun r => decide (r > y2)).length :=
    List.toFinset_card_of_nodup (hnd.filter _)
  have hsub : (l.filter fun r => decide (r > y1)).toFinset ⊆
      (l.filter fun r => decide (r > y2)).toFinset ∪ Finset.Ioo y1 y2 := by
    intro r hr
    simp only [List.toFinset_filter, Finset.mem_filter, List.mem_toFinset,
      decide_eq_true_eq] at hr
    rcases hr with ⟨hrl, hra⟩
    by_cases hrb : r > y2
    · simp only [Finset.mem_union, List.toFinset_filter, Finset.mem_filter,
        List.mem_toFinset, decide_eq_true_eq]
      exact Or.inl ⟨hrl, hrb⟩
    · have hne : r ≠ y2 := fun hrb2 => h2 (hrb2 ▸ hrl)
      simp only [Finset.mem_union, Finset.mem_Ioo]
      exact Or.inr ⟨hra, by omega⟩
  have hcard := Finset.card_le_card hsub
  have hun := Finset.card_union_le ((l.filter fun r => decide (r > y2)).toFinset)
    (Finset.Ioo y1 y2)
  rw [Int.card_Ioo] at hun
  omega

lemma shiftRow_strict_mono (l : List Int) (hnd : l.Nodup) (y1 y2 : Int)
    (h12 : y1 < y2) (h2 : y2 ∉ l) : shiftRow l y1 < shiftRow l y2 := by
  have := filter_gt_length_le l hnd y1 y2 h12 h2
  unfold shiftRow
  omega

lemma shiftRow_injOn (l : List Int) (hnd : l.Nodup) (y1 y2 : Int)
    (h1 : y1 ∉ l) (h2 : y2 ∉ l) (heq : shiftRow l y1 = shiftRow l y2) : y1 = y2 := by
  rcases lt_trichotomy y1 y2 with h | h | h
  · exact absurd heq (by have := shiftRow_strict_mono l hnd y1 y2 h h2; omega)
  · exact h
  · exact absurd heq (by have := shiftRow_strict_mono l hnd y2 y1 h h1; omega)

lemma shiftRow_lt_of_lt (l : List Int) (hnd : l.Nodup)
    (hmem : ∀ r ∈ l, r < (gridHeight : Int)) (y : Int) (hy : y < (gridHeight : Int)) :
    shiftRow l y < (gridHeight : Int) := by
  have hsub : (l.filter fun r => decide (r > y)).toFinset ⊆
      Finset.Ioc y ((gridHeight : Int) - 1) := by
    intro r hr
    simp only [List.toFinset_filter, Finset.mem_filter, List.mem_toFinset,
      decide_eq_true_eq] at hr
    have := hmem r hr.1
    simp only [Finset.mem_Ioc]
    omega
  have hcard := Finset.card_le_card hsub
  rw [Int.card_Ioc] at hcard
  have hlen : (l.filter fun r => decide (r > y)).toFinset.card
      = (l.filter fun r => decide (r > y)).length :=
    List.toFinset_card_of_nodup (hnd.filter _)
  unfold shiftRow
  omega

lemma shiftRow_nonneg (l : List Int) (y : Int) (hy : 0 ≤ y) : 0 ≤ shiftRow l y := by
  unfold shiftRow
  omega

lemma not_mem_of_mem_filter_not_contains {cells : List Pos} {full : List Int} {c : Pos}
    (hc : c ∈ cells.filter fun c => !(full.contains c.y)) : c.y ∉ full := by
  have hpc := List.of_mem_filter hc
  simp only [Bool.not_eq_true'] at hpc
  intro hmem
  rw [← List.elem_iff] at hmem
  rw [List.contains] at hpc
  exact absurd hmem (by rw [hpc]; simp)

/-- After one clearing pass no grid row holds exactly gridWidth cells, so a
second pass finds nothing to clear. -/
lemma rowCount_clearFullRows_ne (blocks : List BlockPosition) (score : Nat)
    (hb : ∀ c ∈ blocks.flatten, InBoundsCell c) (j : Int) :
    rowCount j (clearFullRows blocks score).1 ≠ gridWidth := by
  intro hcount
  rw [rowCount, flatten_clearFullRows, List.countP_map] at hcount
  have hcomp : ((fun c : Pos => decide (c.y = j)) ∘ fun c : Pos =>
      (⟨c.x, shiftRow (findFullRows (calculateRows blocks)) c.y⟩ : Pos))
      = fun c : Pos => decide (shiftRow (findFullRows (calculateRows blocks)) c.y = j) := rfl
  rw [hcomp] at hcount
  have hpos : 0 < (blocks.flatten.filter fun c =>
      !((findFullRows (calculateRows blocks)).contains c.y)).countP
      fun c => decide (shiftRow (findFullRows (calculateRows blocks)) c.y = j) := by
    rw [hcount]; norm_num [gridWidth]
  obtain ⟨c₀, hc₀, hp₀⟩ := List.countP_pos_iff.mp hpos
  have hc₀cells : c₀ ∈ blocks.flatten := List.mem_of_mem_filter hc₀
  have hc₀surv : c₀.y ∉ findFullRows (calculateRows blocks) :=
    not_mem_of_mem_filter_not_contains hc₀
  have hshift : shiftRow (findFullRows (calculateRows blocks)) c₀.y = j :=
    of_decide_eq_true hp₀
  have hnd := findFullRows_nodup blocks
  have hcong1 : ∀ c ∈ blocks.flatten.filter fun c =>
      !((findFullRows (calculateRows blocks)).contains c.y),
      ((decide (shiftRow (findFullRows (calculateRows blocks)) c.y = j)) = true)
        ↔ ((decide (c.y = c₀.y)) = true) := by
    intro c hc
    have hcsurv : c.y ∉ findFullRows (calculateRows blocks) :=
      not_mem_of_mem_filter_not_contains hc
    simp only [decide_eq_true_eq]
    constructor
    · intro h
      exact shiftRow_injOn _ hnd c.y c₀.y hcsurv hc₀surv (h.trans hshift.symm)
    · intro h
      rw [h]; exact hshift
  rw [List.countP_congr hcong1, List.countP_filter] at hcount
  have hcong2 : ∀ c ∈ blocks.flatten,
      ((decide (c.y = c₀.y) && !((findFullRows (calculateRows blocks)).contains c.y)) = true)
        ↔ ((decide (c.y = c₀.y)) = true) := by
    intro c hc
    simp only [Bool.and_eq_true, decide_eq_true_eq, Bool.not_eq_true']
    constructor
    · rintro ⟨h, -⟩; exact h
    · intro h
      refine ⟨h, ?_⟩
      rw [h, ← Bool.not_eq_true]
      intro hcon
      rw [List.contains, List.elem_iff] at hcon
      exact hc₀surv hcon
  rw [List.countP_congr hcong2] at hcount
  have hbnd := hb c₀ hc₀cells
  exact hc₀surv ((mem_findFullRows blocks c₀.y hbnd.2.2.1 hbnd.2.2.2).mpr hcount)

lemma clearFullRows_of_no_full (blocks : List BlockPosition) (score : Nat)
    (h : findFullRows (calculateRows blocks) = []) :
    clearFullRows blocks score = (blocks, score) := by
  unfold clearFullRows
  simp [h]

lemma findFullRows_clearFullRows_nil (blocks : List BlockPosition) (score : Nat)
    (hb : ∀ c ∈ blocks.flatten, InBoundsCell c) :
    findFullRows (calculateRows (clearFullRows blocks score).1) = [] := by
  rw [findFullRows_calculateRows]
  have hidx : fullRowIndices (clearFullRows blocks score).1 = [] := by
    rw [fullRowIndices]
    refine List.filter_eq_nil_iff.mpr fun i hi => ?_
    simp only [decide_eq_true_eq]
    exact rowCount_clearFullRows_ne blocks score hb (i : Int)
  rw [hidx]
  rfl

lemma findFullRows_length_eq (blocks : List BlockPosition) :
    (findFullRows (calculateRows blocks)).length = (fullRowIndices blocks).length := by
  rw [findFullRows_calculateRows, List.length_map]

lemma contains_eq_true_iff (l : List Int) (a : Int) : l.contains a = true ↔ a ∈ l := by
  rw [List.contains, List.elem_iff]

lemma length_filter_map_cast (l : List Nat) (y : Int) :
    ((l.map fun i : Nat => (i : Int)).filter fun r => decide (r > y)).length
      = (l.filter fun i => decide ((i : Int) > y)).length := by
  induction l with
  | nil => rfl
  | cons a t ih =>
    by_cases h : (a : Int) > y <;> simp [h, ih]

lemma shiftRow_eq_dropDistance (blocks : List BlockPosition) (y : Int) :
    shiftRow (findFullRows (calculateRows blocks)) y = y + (dropDistance blocks y : Int) := by
  unfold shiftRow dropDistance
  rw [findFullRows_calculateRows, length_filter_map_cast]

lemma survive_link (blocks : List BlockPosition) (c : Pos) (hc : InBoundsCell c) :
    (!((findFullRows (calculateRows blocks)).contains c.y))
      = decide (rowCount c.y blocks ≠ gridWidth) := by
  by_cases hful : rowCount c.y blocks = gridWidth
  · have hmem : c.y ∈ findFullRows (calculateRows blocks) :=
      (mem_findFullRows blocks c.y hc.2.2.1 hc.2.2.2).mpr hful
    have hcon : (findFullRows (calculateRows blocks)).contains c.y = true :=
      (contains_eq_true_iff _ _).mpr hmem
    rw [hcon]
    simp [hful]
  · have hmem : c.y ∉ findFullRows (calculateRows blocks) := fun hm =>
      hful ((mem_findFullRows blocks c.y hc.2.2.1 hc.2.2.2).mp hm)
    have hcon : (findFullRows (calculateRows blocks)).contains c.y = false := by
      rw [← Bool.not_eq_true, contains_eq_true_iff]
      exact hmem
    rw [hcon]
    simp [hful]

/-- C8: clearFullRows is idempotent.  Applied to its own output, with no
new cells added in between, it returns the settled cells and the score it
produced the first time.  The settled cells are cells of the grid, per the
data model of the spec. -/
theorem c8_clearFullRows_idempotent (blocks : List BlockPosition) (score : Nat)
    (hb : ∀ c ∈ blocks.flatten, InBoundsCell c) :
    clearFullRows (clearFullRows blocks score).1 (clearFullRows blocks score).2
      = clearFullRows blocks score :=
  clearFullRows_of_no_full _ _ (findFullRows_clearFullRows_nil blocks score hb)

/-- Witness for C8 on a board with one full bottom row and one cell above it. -/
theorem c8_clearFullRows_idempotent_witness :
    (∀ c ∈ ([[⟨0, 19⟩, ⟨1, 19⟩, ⟨2, 19⟩, ⟨3, 19⟩, ⟨4, 19⟩, ⟨5, 19⟩, ⟨6, 19⟩, ⟨7, 19⟩,
        ⟨8, 19⟩, ⟨9, 19⟩], [⟨4, 18⟩]] : List BlockPosition).flatten, InBoundsCell c) ∧
      clearFullRows
        (clearFullRows [[⟨0, 19⟩, ⟨1, 19⟩, ⟨2, 19⟩, ⟨3, 19⟩, ⟨4, 19⟩, ⟨5, 19⟩, ⟨6, 19⟩,
          ⟨7, 19⟩, ⟨8, 19⟩, ⟨9, 19⟩], [⟨4, 18⟩]] 0).1
        (clearFullRows [[⟨0, 19⟩, ⟨1, 19⟩, ⟨2, 19⟩, ⟨3, 19⟩, ⟨4, 19⟩, ⟨5, 19⟩, ⟨6, 19⟩,
          ⟨7, 19⟩, ⟨8, 19⟩, ⟨9, 19⟩], [⟨4, 18⟩]] 0).2
        = clearFullRows [[⟨0, 19⟩, ⟨1, 19⟩, ⟨2, 19⟩, ⟨3, 19⟩, ⟨4, 19⟩, ⟨5, 19⟩, ⟨6, 19⟩,
          ⟨7, 19⟩, ⟨8, 19⟩, ⟨9, 19⟩], [⟨4, 18⟩]] 0 :=
  ⟨by decide, c8_clearFullRows_idempotent _ 0 (by decide)⟩

/-- C2: full characterization of clearFullRows in the words of the spec: a
grid row is detected as full exactly when it holds gridWidth settled
cells; the surviving cells are exactly the cells of non-full rows, each
moved down by the number of full rows strictly below it with its column
unchanged; groups left empty by a clearing pass are discarded; the score
grows by exactly 100 points per full row; and with no full row the
settled cells and the score pass through unchanged. -/
theorem c2_clearFullRows_characterization (blocks : List BlockPosition) (score : Nat)
    (hb : ∀ c ∈ blocks.flatten, InBoundsCell c) :
    ((clearFullRows blocks score).2
        = score + (fullRowIndices blocks).length * singleRowFillScore) ∧
      (∀ y : Int, 0 ≤ y → y < (gridHeight : Int) →
        (y ∈ findFullRows (calculateRows blocks) ↔ rowCount y blocks = gridWidth)) ∧
      ((clearFullRows blocks score).1.flatten
        = (blocks.flatten.filter fun c => decide (rowCount c.y blocks ≠ gridWidth)).map
            fun c => (⟨c.x, c.y + (dropDistance blocks c.y : Int)⟩ : Pos)) ∧
      ((fullRowIndices blocks).length ≠ 0 → ∀ b ∈ (clearFullRows blocks score).1, b ≠ []) ∧
      ((fullRowIndices blocks).length = 0 → clearFullRows blocks score = (blocks, score)) := by
  refine ⟨?_, ?_, ?_, ?_, ?_⟩
  · rw [clearFullRows_score, findFullRows_length_eq]
  · exact fun y h0 h1 => mem_findFullRows blocks y h0 h1
  · rw [flatten_clearFullRows]
    have hmap : (fun c : Pos =>
        (⟨c.x, shiftRow (findFullRows (calculateRows blocks)) c.y⟩ : Pos))
        = fun c : Pos => (⟨c.x, c.y + (dropDistance blocks c.y : Int)⟩ : Pos) :=
      funext fun c => by rw [shiftRow_eq_dropDistance]
    rw [hmap, List.filter_congr fun c hc => survive_link blocks c (hb c hc)]
  · intro hne b hbmem
    have h0 : ¬ (findFullRows (calculateRows blocks)).length = 0 := by
      rw [findFullRows_length_eq]; exact hne
    unfold clearFullRows at hbmem
    simp only [h0, if_false] at hbmem
    unfold dropBlocksAboveClearedRows at hbmem
    rcases List.mem_map.mp hbmem with ⟨b', hb', rfl⟩
    have hlen := List.of_mem_filter hb'
    simp only [decide_eq_true_eq] at hlen
    intro hnil
    rw [List.map_eq_nil_iff] at hnil
    rw [hnil] at hlen
    simp at hlen
  · intro h0
    refine clearFullRows_of_no_full blocks score ?_
    refine List.eq_nil_of_length_eq_zero ?_
    rw [findFullRows_length_eq]
    exact h0

/-- Witness for C2 on a board with one full bottom row and one cell above it. -/
theorem c2_clearFullRows_characterization_witness :
    (∀ c ∈ ([[⟨0, 19⟩, ⟨1, 19⟩, ⟨2, 19⟩, ⟨3, 19⟩, ⟨4, 19⟩, ⟨5, 19⟩, ⟨6, 19⟩, ⟨7, 19⟩,
        ⟨8, 19⟩, ⟨9, 19⟩], [⟨4, 18⟩]] : List BlockPosition).flatten, InBoundsCell c) ∧
      (((clearFullRows [[⟨0, 19⟩, ⟨1, 19⟩, ⟨2, 19⟩, ⟨3, 19⟩, ⟨4, 19⟩, ⟨5, 19⟩, ⟨6, 19⟩,
          ⟨7, 19⟩, ⟨8, 19⟩, ⟨9, 19⟩], [⟨4, 18⟩]] 7).2
        = 7 + (fullRowIndices [[⟨0, 19⟩, ⟨1, 19⟩, ⟨2, 19⟩, ⟨3, 19⟩, ⟨4, 19⟩, ⟨5, 19⟩,
            ⟨6, 19⟩, ⟨7, 19⟩, ⟨8, 19⟩, ⟨9, 19⟩], [⟨4, 18⟩]]).length * singleRowFillScore) ∧
        (∀ y : Int, 0 ≤ y → y < (gridHeight : Int) →
          (y ∈ findFullRows (calculateRows [[⟨0, 19⟩, ⟨1, 19⟩, ⟨2, 19⟩, ⟨3, 19⟩, ⟨4, 19⟩,
              ⟨5, 19⟩, ⟨6, 19⟩, ⟨7, 19⟩, ⟨8, 19⟩, ⟨9, 19⟩], [⟨4, 18⟩]])
            ↔ rowCount y [[⟨0, 19⟩, ⟨1, 19⟩, ⟨2, 19⟩, ⟨3, 19⟩, ⟨4, 19⟩, ⟨5, 19⟩, ⟨6, 19⟩,
              ⟨7, 19⟩, ⟨8, 19⟩, ⟨9, 19⟩], [⟨4, 18⟩]] = gridWidth)) ∧
        ((clearFullRows [[⟨0, 19⟩, ⟨1, 19⟩, ⟨2, 19⟩, ⟨3, 19⟩, ⟨4, 19⟩, ⟨5, 19⟩, ⟨6, 19⟩,
            ⟨7, 19⟩, ⟨8, 19⟩, ⟨9, 19⟩], [⟨4, 18⟩]] 7).1.flatten
          = (([[⟨0, 19⟩, ⟨1, 19⟩, ⟨2, 19⟩, ⟨3, 19⟩, ⟨4, 19⟩, ⟨5, 19⟩, ⟨6, 19⟩, ⟨7, 19⟩,
              ⟨8, 19⟩, ⟨9, 19⟩], [⟨4, 18⟩]] : List BlockPosition).flatten.filter fun c =>
              decide (rowCount c.y [[⟨0, 19⟩, ⟨1, 19⟩, ⟨2, 19⟩, ⟨3, 19⟩, ⟨4, 19⟩, ⟨5, 19⟩,
                ⟨6, 19⟩, ⟨7, 19⟩, ⟨8, 19⟩, ⟨9, 19⟩], [⟨4, 18⟩]] ≠ gridWidth)).map
              fun c => (⟨c.x, c.y + (dropDistance [[⟨0, 19⟩, ⟨1, 19⟩, ⟨2, 19⟩, ⟨3, 19⟩,
                ⟨4, 19⟩, ⟨5, 19⟩, ⟨6, 19⟩, ⟨7, 19⟩, ⟨8, 19⟩, ⟨9, 19⟩], [⟨4, 18⟩]] c.y : Int)⟩
                : Pos)) ∧
        ((fullRowIndices [[⟨0, 19⟩, ⟨1, 19⟩, ⟨2, 19⟩, ⟨3, 19⟩, ⟨4, 19⟩, ⟨5, 19⟩, ⟨6, 19⟩,
            ⟨7, 19⟩, ⟨8, 19⟩, ⟨9, 19⟩], [⟨4, 18⟩]]).length ≠ 0 →
          ∀ b ∈ (clearFullRows [[⟨0, 19⟩, ⟨1, 19⟩, ⟨2, 19⟩, ⟨3, 19⟩, ⟨4, 19⟩, ⟨5, 19⟩,
            ⟨6, 19⟩, ⟨7, 19⟩, ⟨8, 19⟩, ⟨9, 19⟩], [⟨4, 18⟩]] 7).1, b ≠ []) ∧
        ((fullRowIndices [[⟨0, 19⟩, ⟨1, 19⟩, ⟨2, 19⟩, ⟨3, 19⟩, ⟨4, 19⟩, ⟨5, 19⟩, ⟨6, 19⟩,
            ⟨7, 19⟩, ⟨8, 19⟩, ⟨9, 19⟩], [⟨4, 18⟩]]).length = 0 →
          clearFullRows [[⟨0, 19⟩, ⟨1, 19⟩, ⟨2, 19⟩, ⟨3, 19⟩, ⟨4, 19⟩, ⟨5, 19⟩, ⟨6, 19⟩,
            ⟨7, 19⟩, ⟨8, 19⟩, ⟨9, 19⟩], [⟨4, 18⟩]] 7
            = ([[⟨0, 19⟩, ⟨1, 19⟩, ⟨2, 19⟩, ⟨3, 19⟩, ⟨4, 19⟩, ⟨5, 19⟩, ⟨6, 19⟩, ⟨7, 19⟩,
              ⟨8, 19⟩, ⟨9, 19⟩], [⟨4, 18⟩]], 7))) :=
  ⟨by decide, c2_clearFullRows_characterization _ 7 (by decide)⟩

/-! Frame lemmas for the player actions. -/

lemma createGameAction_frame (action : Block → List BlockPosition → Block) (s : GameState) :
    (createGameAction action s).score = s.score ∧
      (createGameAction action s).oldBlocks = s.oldBlocks ∧
      (createGameAction action s).gameEnd = s.gameEnd ∧
      (createGameAction action s).highScore = s.highScore ∧
      (createGameAction action s).nextBlock = s.nextBlock ∧
      (createGameAction action s).holdBlock = s.holdBlock := by
  unfold createGameAction
  cases action s.currentBlock s.oldBlocks <;> simp

lemma holdAction_frame (r1 r2 : BlockPosition) (s : GameState) :
    (holdAction r1 r2 s).score = s.score ∧
      (holdAction r1 r2 s).oldBlocks = s.oldBlocks ∧
      (holdAction r1 r2 s).gameEnd = s.gameEnd ∧
      (holdAction r1 r2 s).highScore = s.highScore := by
  unfold holdAction
  simp

lemma clearFullRows_score_le (blocks : List BlockPosition) (score : Nat) :
    score ≤ (clearFullRows blocks score).2 := by
  rw [clearFullRows_score]
  omega

/-- C3 (amended): within one Tick, row clearing runs first and the
terminal check runs before any spawn or movement; when a settled cell
remains at row 0 after clearing, the resulting state has gameEnd true and
highScore equal to the maximum of the previous highScore and score, and no
block is spawned or moved; however the rest of the state is reset to the
initial state, so the board is cleared rather than frozen. -/
theorem c3_terminal_tick (s : GameState) (r1 r2 : BlockPosition)
    (h : hasBlockReachedTop (clearFullRows s.oldBlocks s.score).1 = true) :
    gameActions GameEvent.Tick r1 r2 s =
      { gameEnd := true, currentBlock := none, nextBlock := none, holdBlock := none,
        oldBlocks := [], score := 0, highScore := max s.highScore s.score } := by
  unfold gameActions tick
  simp only [h, if_true]
  rfl

/-- Witness for C3 at a state with a single settled cell at row 0. -/
theorem c3_terminal_tick_witness :
    hasBlockReachedTop
        (clearFullRows (⟨false, none, none, none, [[⟨0, 0⟩]], 0, 7⟩ : GameState).oldBlocks
          (⟨false, none, none, none, [[⟨0, 0⟩]], 0, 7⟩ : GameState).score).1 = true ∧
      gameActions GameEvent.Tick (generateRandomBlockShape 3 0) (generateRandomBlockShape 3 0)
          (⟨false, none, none, none, [[⟨0, 0⟩]], 0, 7⟩ : GameState) =
        { gameEnd := true, currentBlock := none, nextBlock := none, holdBlock := none,
          oldBlocks := [], score := 0,
          highScore := max (⟨false, none, none, none, [[⟨0, 0⟩]], 0, 7⟩ : GameState).highScore
            (⟨false, none, none, none, [[⟨0, 0⟩]], 0, 7⟩ : GameState).score } :=
  ⟨by decide, c3_terminal_tick _ _ _ (by decide)⟩

/-- Counterexample for C3 as stated: the terminal Tick does not freeze the
board for external display; it resets the settled cells to the empty
board, discarding the cleared board. -/
theorem c3_counterexample :
    hasBlockReachedTop
        (clearFullRows (⟨false, none, none, none, [[⟨5, 0⟩]], 0, 3⟩ : GameState).oldBlocks
          (⟨false, none, none, none, [[⟨5, 0⟩]], 0, 3⟩ : GameState).score).1 = true ∧
      (gameActions GameEvent.Tick (generateRandomBlockShape 3 0) (generateRandomBlockShape 3 0)
          (⟨false, none, none, none, [[⟨5, 0⟩]], 0, 3⟩ : GameState)).gameEnd = true ∧
      (gameActions GameEvent.Tick (generateRandomBlockShape 3 0) (generateRandomBlockShape 3 0)
          (⟨false, none, none, none, [[⟨5, 0⟩]], 0, 3⟩ : GameState)).oldBlocks ≠
        (clearFullRows (⟨false, none, none, none, [[⟨5, 0⟩]], 0, 3⟩ : GameState).oldBlocks
          (⟨false, none, none, none, [[⟨5, 0⟩]], 0, 3⟩ : GameState).score).1 := by
  refine ⟨by decide, by decide, by decide⟩

/-- C4: no event other than Tick can change the score, the settled cells,
the terminal flag or the high score; the Down event is only the manual
one-cell downward translation of the current block. -/
theorem c4_non_tick_frame (s : GameState) (e : GameEvent) (r1 r2 : BlockPosition)
    (h : e ≠ GameEvent.Tick) :
    ((gameActions e r1 r2 s).score = s.score ∧
        (gameActions e r1 r2 s).oldBlocks = s.oldBlocks ∧
        (gameActions e r1 r2 s).gameEnd = s.gameEnd ∧
        (gameActions e r1 r2 s).highScore = s.highScore) ∧
      ((gameActions GameEvent.Down r1 r2 s).currentBlock = s.currentBlock ∨
        ∃ cb, s.currentBlock = some cb ∧
          (gameActions GameEvent.Down r1 r2 s).currentBlock = some (cb.map moveDownLogic)) := by
  constructor
  · cases e with
    | Tick => exact absurd rfl h
    | Hold =>
      have hf := holdAction_frame r1 r2 s
      exact ⟨hf.1, hf.2.1, hf.2.2.1, hf.2.2.2⟩
    | Left =>
      have hf := createGameAction_frame moveBlockLeft s
      exact ⟨hf.1, hf.2.1, hf.2.2.1, hf.2.2.2.1⟩
    | Right =>
      have hf := createGameAction_frame moveBlockRight s
      exact ⟨hf.1, hf.2.1, hf.2.2.1, hf.2.2.2.1⟩
    | Down =>
      have hf := createGameAction_frame moveBlockDown s
      exact ⟨hf.1, hf.2.1, hf.2.2.1, hf.2.2.2.1⟩
    | RotateClockwise =>
      have hf := createGameAction_frame rotateBlockClockwise s
      exact ⟨hf.1, hf.2.1, hf.2.2.1, hf.2.2.2.1⟩
    | RotateAntiClockwise =>
      have hf := createGameAction_frame rotateBlockAntiClockwise s
      exact ⟨hf.1, hf.2.1, hf.2.2.1, hf.2.2.2.1⟩
  · have hgd : gameActions GameEvent.Down r1 r2 s = createGameAction moveBlockDown s := rfl
    rw [hgd]
    cases hcb : s.currentBlock with
    | none =>
      left
      unfold createGameAction
      rw [hcb]
      exact hcb
    | some cb =>
      have hred : moveBlockDown (some cb) s.oldBlocks
          = if ((cb.any fun cubePos => decide (cubePos.y + 1 ≥ (gridHeight : Int)))
              || hasObjectCollided moveDownLogic cb s.oldBlocks) = true
            then some cb else some (move moveDownLogic cb) := rfl
      have hcases : moveBlockDown (some cb) s.oldBlocks = some cb ∨
          moveBlockDown (some cb) s.oldBlocks = some (cb.map moveDownLogic) := by
        rw [hred]
        split
        · exact Or.inl rfl
        · exact Or.inr rfl
      rcases hcases with hmb | hmb
      · left
        unfold createGameAction
        rw [hcb, hmb]
      · right
        refine ⟨cb, rfl, ?_⟩
        unfold createGameAction
        rw [hcb, hmb]

/-- Witness for C4 at the initial state with the Left event. -/
theorem c4_non_tick_frame_witness :
    GameEvent.Left ≠ GameEvent.Tick ∧
      (((gameActions GameEvent.Left (generateRandomBlockShape 3 0)
            (generateRandomBlockShape 3 0) initialState).score = initialState.score ∧
          (gameActions GameEvent.Left (generateRandomBlockShape 3 0)
            (generateRandomBlockShape 3 0) initialState).oldBlocks = initialState.oldBlocks ∧
          (gameActions GameEvent.Left (generateRandomBlockShape 3 0)
            (generateRandomBlockShape 3 0) initialState).gameEnd = initialState.gameEnd ∧
          (gameActions GameEvent.Left (generateRandomBlockShape 3 0)
            (generateRandomBlockShape 3 0) initialState).highScore = initialState.highScore) ∧
        ((gameActions GameEvent.Down (generateRandomBlockShape 3 0)
            (generateRandomBlockShape 3 0) initialState).currentBlock
            = initialState.currentBlock ∨
          ∃ cb, initialState.currentBlock = some cb ∧
            (gameActions GameEvent.Down (generateRandomBlockShape 3 0)
              (generateRandomBlockShape 3 0) initialState).currentBlock
              = some (cb.map moveDownLogic))) :=
  ⟨by decide, c4_non_tick_frame initialState GameEvent.Left _ _ (by decide)⟩

/-- C5 (amended): every step leaves the high score at least as large as
before, and never decreases the score except at the terminal Tick, which
resets the state and captures the score into the high score. -/
theorem c5_score_monotonicity (s : GameState) (e : GameEvent) (r1 r2 : BlockPosition) :
    s.highScore ≤ (gameActions e r1 r2 s).highScore ∧
      (s.score ≤ (gameActions e r1 r2 s).score ∨
        (e = GameEvent.Tick ∧ (gameActions e r1 r2 s).gameEnd = true ∧
          (gameActions e r1 r2 s).score = 0 ∧
          (gameActions e r1 r2 s).highScore = max s.highScore s.score)) := by
  cases e with
  | Tick =>
    have hg : gameActions GameEvent.Tick r1 r2 s = tick r1 r2 s := rfl
    rw [hg]
    unfold tick
    by_cases htop : hasBlockReachedTop (clearFullRows s.oldBlocks s.score).1 = true
    · simp only [htop, if_true]
      exact ⟨le_max_left _ _, Or.inr ⟨by trivial, by trivial, by trivial, by trivial⟩⟩
    · simp only [htop, if_false]
      by_cases hland : hasBlockLanded s.currentBlock (clearFullRows s.oldBlocks s.score).1 = true
      · simp only [hland, if_true]
        exact ⟨le_refl _, Or.inl (clearFullRows_score_le s.oldBlocks s.score)⟩
      · simp only [hland, if_false]
        exact ⟨le_refl _, Or.inl (clearFullRows_score_le s.oldBlocks s.score)⟩
  | Hold =>
    have hf := holdAction_frame r1 r2 s
    exact ⟨le_of_eq hf.2.2.2.symm, Or.inl (le_of_eq hf.1.symm)⟩
  | Left =>
    have hf := createGameAction_frame moveBlockLeft s
    exact ⟨le_of_eq hf.2.2.2.1.symm, Or.inl (le_of_eq hf.1.symm)⟩
  | Right =>
    have hf := createGameAction_frame moveBlockRight s
    exact ⟨le_of_eq hf.2.2.2.1.symm, Or.inl (le_of_eq hf.1.symm)⟩
  | Down =>
    have hf := createGameAction_frame moveBlockDown s
    exact ⟨le_of_eq hf.2.2.2.1.symm, Or.inl (le_of_eq hf.1.symm)⟩
  | RotateClockwise =>
    have hf := createGameAction_frame rotateBlockClockwise s
    exact ⟨le_of_eq hf.2.2.2.1.symm, Or.inl (le_of_eq hf.1.symm)⟩
  | RotateAntiClockwise =>
    have hf := createGameAction_frame rotateBlockAntiClockwise s
    exact ⟨le_of_eq hf.2.2.2.1.symm, Or.inl (le_of_eq hf.1.symm)⟩

/-- Counterexample for C5 as stated: the terminal Tick resets the score to
0, so the step function can decrease the score. -/
theorem c5_counterexample :
    ¬ ((⟨false, none, none, none, [[⟨0, 0⟩]], 100, 0⟩ : GameState).score ≤
      (gameActions GameEvent.Tick (generateRandomBlockShape 3 0) (generateRandomBlockShape 3 0)
        (⟨false, none, none, none, [[⟨0, 0⟩]], 100, 0⟩ : GameState)).score) := by
  decide

/-- C9: the hold semantics.  The helper holdCurrentBlock is a no-op with
no current block, moves the current block into the hold slot when the hold
slot is empty, and swaps the two otherwise; at the game level holding with
an empty hold slot stores the current block and immediately refills the
current block from the next block while drawing a fresh next block,
holding with an occupied hold slot swaps, and a Hold step always leaves a
falling block on the board. -/
theorem c9_hold_semantics (hb : Block) (cb hb' : BlockPosition) (s : GameState)
    (r1 r2 : BlockPosition) :
    holdCurrentBlock none hb = (none, hb) ∧
      holdCurrentBlock (some cb) none = (none, some cb) ∧
      holdCurrentBlock (some cb) (some hb') = (some hb', some cb) ∧
      holdAction r1 r2 { s with currentBlock := some cb, holdBlock := none }
        = { s with
            currentBlock := some (s.nextBlock.getD r1)
            nextBlock := some r2
            holdBlock := some cb } ∧
      holdAction r1 r2 { s with currentBlock := some cb, holdBlock := some hb' }
        = { s with currentBlock := some hb', holdBlock := some cb } ∧
      ((holdAction r1 r2 s).currentBlock).isSome = true := by
  refine ⟨rfl, rfl, rfl, rfl, rfl, ?_⟩
  unfold holdAction holdCurrentBlock setCurrentBlock
  cases s.currentBlock with
  | none => rfl
  | some cb2 =>
    cases s.holdBlock with
    | none => rfl
    | some hb2 => rfl

/-- C10: applying Hold with no current block refills the current block
from the next block when present and from a fresh draw otherwise, draws a
fresh next block, and leaves the hold slot unchanged. -/
theorem c10_hold_refills_current (s : GameState) (r1 r2 : BlockPosition)
    (h : s.currentBlock = none) :
    gameActions GameEvent.Hold r1 r2 s
      = { s with currentBlock := some (s.nextBlock.getD r1), nextBlock := some r2 } := by
  show holdAction r1 r2 s = _
  unfold holdAction holdCurrentBlock setCurrentBlock generateBlock
  rw [h]

/-! Lemmas for the rotation claims. -/

lemma hasObjectCollided_eq_false_iff (logic : Pos → Pos) (rb : BlockPosition)
    (old : List BlockPosition) :
    hasObjectCollided logic rb old = false ↔ ∀ q ∈ old.flatten, ∀ p ∈ rb, logic p ≠ q := by
  unfold hasObjectCollided
  rw [← Bool.not_eq_true]
  simp only [List.any_eq_true, decide_eq_true_eq]
  push_neg
  constructor
  · intro h q hq p hp
    rcases List.mem_flatten.mp hq with ⟨ob, hob, hqob⟩
    exact h ob hob q hqob p hp
  · intro h ob hob q hqob p hp
    exact h q (List.mem_flatten.mpr ⟨ob, hob, hqob⟩) p hp

lemma boundary_any_eq_false_iff (rb : BlockPosition) :
    (rb.any fun cubePos =>
        decide (cubePos.x < 0) || decide (cubePos.x ≥ (gridWidth : Int)) ||
        decide (cubePos.y < 0) || decide (cubePos.y ≥ (gridHeight : Int))) = false
      ↔ ∀ p ∈ rb, InBoundsCell p := by
  rw [← Bool.not_eq_true]
  simp only [List.any_eq_true, Bool.or_eq_true, decide_eq_true_eq]
  push_neg
  constructor
  · intro h p hp
    have h2 := h p hp
    unfold InBoundsCell
    omega
  · intro h p hp
    have h2 := h p hp
    unfold InBoundsCell at h2
    omega

lemma rotate_cond_false_iff (rb : BlockPosition) (old : List BlockPosition) :
    ((rb.any fun cubePos =>
        decide (cubePos.x < 0) || decide (cubePos.x ≥ (gridWidth : Int)) ||
        decide (cubePos.y < 0) || decide (cubePos.y ≥ (gridHeight : Int)))
      || hasObjectCollidedDown rb old
      || hasObjectCollidedLeft rb old
      || hasObjectCollidedRight rb old) = false ↔ ValidRotation rb old := by
  simp only [Bool.or_eq_false_iff]
  unfold ValidRotation hasObjectCollidedDown hasObjectCollidedLeft hasObjectCollidedRight
  constructor
  · rintro ⟨⟨⟨hb, hd⟩, hl⟩, hr⟩
    exact ⟨(boundary_any_eq_false_iff rb).mp hb,
      (hasObjectCollided_eq_false_iff moveDownLogic rb old).mp hd,
      (hasObjectCollided_eq_false_iff moveLeftLogic rb old).mp hl,
      (hasObjectCollided_eq_false_iff moveRightLogic rb old).mp hr⟩
  · rintro ⟨h1, h2, h3, h4⟩
    exact ⟨⟨⟨(boundary_any_eq_false_iff rb).mpr h1,
      (hasObjectCollided_eq_false_iff moveDownLogic rb old).mpr h2⟩,
      (hasObjectCollided_eq_false_iff moveLeftLogic rb old).mpr h3⟩,
      (hasObjectCollided_eq_false_iff moveRightLogic rb old).mpr h4⟩

lemma createRotateBlockAction_eq (rl : BlockPosition → BlockPosition)
    (cb : BlockPosition) (old : List BlockPosition) :
    createRotateBlockAction rl (some cb) old
      = if ValidRotation (rl cb) old then some (rl cb) else some cb := by
  have hred : createRotateBlockAction rl (some cb) old
      = if ((rl cb).any (fun cubePos =>
            decide (cubePos.x < 0) || decide (cubePos.x ≥ (gridWidth : Int)) ||
            decide (cubePos.y < 0) || decide (cubePos.y ≥ (gridHeight : Int)))
          || hasObjectCollidedDown (rl cb) old
          || hasObjectCollidedLeft (rl cb) old
          || hasObjectCollidedRight (rl cb) old) = true
        then some cb else some (rl cb) := rfl
  rw [hred]
  by_cases hv : ValidRotation (rl cb) old
  · rw [if_pos hv]
    have hc : ((rl cb).any (fun cubePos =>
          decide (cubePos.x < 0) || decide (cubePos.x ≥ (gridWidth : Int)) ||
          decide (cubePos.y < 0) || decide (cubePos.y ≥ (gridHeight : Int)))
        || hasObjectCollidedDown (rl cb) old
        || hasObjectCollidedLeft (rl cb) old
        || hasObjectCollidedRight (rl cb) old) = false :=
      (rotate_cond_false_iff (rl cb) old).mpr hv
    rw [hc]
    simp
  · rw [if_neg hv]
    have hctrue : ((rl cb).any (fun cubePos =>
          decide (cubePos.x < 0) || decide (cubePos.x ≥ (gridWidth : Int)) ||
          decide (cubePos.y < 0) || decide (cubePos.y ≥ (gridHeight : Int)))
        || hasObjectCollidedDown (rl cb) old
        || hasObjectCollidedLeft (rl cb) old
        || hasObjectCollidedRight (rl cb) old) = true := by
      cases hcv : ((rl cb).any (fun cubePos =>
          decide (cubePos.x < 0) || decide (cubePos.x ≥ (gridWidth : Int)) ||
          decide (cubePos.y < 0) || decide (cubePos.y ≥ (gridHeight : Int)))
        || hasObjectCollidedDown (rl cb) old
        || hasObjectCollidedLeft (rl cb) old
        || hasObjectCollidedRight (rl cb) old) with
      | true => rfl
      | false => exact absurd ((rotate_cond_false_iff (rl cb) old).mp hcv) hv
    rw [hctrue]
    simp

/-- C6: a rotation either returns the fully rotated block, accepted
exactly when every rotated cell lies within the grid and the rotated block
passes the down, left and right collision checks against the settled
cells, or silently returns the original block completely unchanged; no
wall-kick search is performed. -/
theorem c6_rotation_all_or_nothing (cb : BlockPosition) (oldBlocks : List BlockPosition) :
    rotateBlockClockwise (some cb) oldBlocks
      = (if ValidRotation (rotate cb rotateClockwiseLogic) oldBlocks
          then some (rotate cb rotateClockwiseLogic) else some cb) ∧
    rotateBlockAntiClockwise (some cb) oldBlocks
      = (if ValidRotation (rotate cb rotateAntiClockwiseLogic) oldBlocks
          then some (rotate cb rotateAntiClockwiseLogic) else some cb) :=
  ⟨createRotateBlockAction_eq (fun block => rotate block rotateClockwiseLogic) cb oldBlocks,
    createRotateBlockAction_eq (fun block => rotate block rotateAntiClockwiseLogic) cb oldBlocks⟩

/-- C7: rotating a block clockwise and then anticlockwise, or the other
way around, with each step computing its own pivot, yields a translate of
the original cell list; the translation offset is exactly the discrepancy
produced by pivot rounding, so the resulting cell-set is geometrically
equivalent to the original up to that rounding. -/
theorem c7_rotation_round_trip (b : BlockPosition) :
    (∃ d : Pos, rotate (rotate b rotateClockwiseLogic) rotateAntiClockwiseLogic
      = translateBlock d b) ∧
    (∃ d : Pos, rotate (rotate b rotateAntiClockwiseLogic) rotateClockwiseLogic
      = translateBlock d b) := by
  constructor
  · unfold rotate
    refine ⟨⟨(adjustedCenter (b.map fun pos => rotateClockwiseLogic pos (adjustedCenter b))).x
        - (adjustedCenter b).x + (adjustedCenter b).y
        - (adjustedCenter (b.map fun pos => rotateClockwiseLogic pos (adjustedCenter b))).y,
      (adjustedCenter (b.map fun pos => rotateClockwiseLogic pos (adjustedCenter b))).x
        - (adjustedCenter b).x
        + (adjustedCenter (b.map fun pos => rotateClockwiseLogic pos (adjustedCenter b))).y
        - (adjustedCenter b).y⟩, ?_⟩
    rw [List.map_map]
    unfold translateBlock
    refine List.map_congr_left fun p hp => ?_
    simp only [Function.comp, rotateClockwiseLogic, rotateAntiClockwiseLogic, Pos.mk.injEq]
    constructor <;> ring
  · unfold rotate
    refine ⟨⟨(adjustedCenter (b.map fun pos => rotateAntiClockwiseLogic pos (adjustedCenter b))).x
        - (adjustedCenter b).x
        + (adjustedCenter (b.map fun pos => rotateAntiClockwiseLogic pos (adjustedCenter b))).y
        - (adjustedCenter b).y,
      (adjustedCenter (b.map fun pos => rotateAntiClockwiseLogic pos (adjustedCenter b))).y
        - (adjustedCenter b).y
        - ((adjustedCenter (b.map fun pos => rotateAntiClockwiseLogic pos (adjustedCenter b))).x
        - (adjustedCenter b).x)⟩, ?_⟩
    rw [List.map_map]
    unfold translateBlock
    refine List.map_congr_left fun p hp => ?_
    simp only [Function.comp, rotateClockwiseLogic, rotateAntiClockwiseLogic, Pos.mk.injEq]
    constructor <;> ring

/-! Preservation of the in-grid invariant by every step, for C1. -/

lemma spawnBlock_inBounds (b : BlockPosition) (h : SpawnBlock b) :
    ∀ c ∈ b, InBoundsCell c := by
  obtain ⟨t, x, ht, hx0, hx1, rfl⟩ := h
  have hx6 : x ≤ 6 := by
    have : ((gridWidth : Int) - 4) = 6 := by norm_num [gridWidth]
    omega
  interval_cases t <;>
  · intro c hc
    simp only [generateRandomBlockShape, List.mem_cons, List.not_mem_nil, or_false] at hc
    unfold InBoundsCell
    rcases hc with rfl | rfl | rfl | rfl <;> simp [gridWidth, gridHeight] <;> omega

lemma moveBlockDown_inBounds (cur : Block) (old : List BlockPosition)
    (h : InBoundsOpt cur) : InBoundsOpt (moveBlockDown cur old) := by
  cases cur with
  | none => exact h
  | some cb =>
    have hred : moveBlockDown (some cb) old
        = if ((cb.any fun cubePos => decide (cubePos.y + 1 ≥ (gridHeight : Int)))
            || hasObjectCollided moveDownLogic cb old) = true
          then some cb else some (move moveDownLogic cb) := rfl
    rw [hred]
    split
    · exact h
    · rename_i hcond
      intro c hc
      rcases List.mem_map.mp hc with ⟨p, hp, rfl⟩
      have hbp := h p hp
      have hnb : ¬ ((cb.any fun cubePos => decide (cubePos.y + 1 ≥ (gridHeight : Int))) = true) :=
        fun hany => hcond (by rw [hany]; simp)
      rw [List.any_eq_true] at hnb
      push_neg at hnb
      have hstep := hnb p hp
      simp only [ne_eq, decide_eq_true_eq] at hstep
      obtain ⟨hbx0, hbx1, hby0, hby1⟩ := hbp
      unfold InBoundsCell moveDownLogic
      dsimp only
      omega

lemma moveBlockLeft_inBounds (cur : Block) (old : List BlockPosition)
    (h : InBoundsOpt cur) : InBoundsOpt (moveBlockLeft cur old) := by
  cases cur with
  | none => exact h
  | some cb =>
    have hred : moveBlockLeft (some cb) old
        = if ((cb.any fun cubePos => decide (cubePos.x - 1 < 0))
            || hasObjectCollided moveLeftLogic cb old) = true
          then some cb else some (move moveLeftLogic cb) := rfl
    rw [hred]
    split
    · exact h
    · rename_i hcond
      intro c hc
      rcases List.mem_map.mp hc with ⟨p, hp, rfl⟩
      have hbp := h p hp
      have hnb : ¬ ((cb.any fun cubePos => decide (cubePos.x - 1 < 0)) = true) :=
        fun hany => hcond (by rw [hany]; simp)
      rw [List.any_eq_true] at hnb
      push_neg at hnb
      have hstep := hnb p hp
      simp only [ne_eq, decide_eq_true_eq] at hstep
      obtain ⟨hbx0, hbx1, hby0, hby1⟩ := hbp
      unfold InBoundsCell moveLeftLogic
      dsimp only
      omega

lemma moveBlockRight_inBounds (cur : Block) (old : List BlockPosition)
    (h : InBoundsOpt cur) : InBoundsOpt (moveBlockRight cur old) := by
  cases cur with
  | none => exact h
  | some cb =>
    have hred : moveBlockRight (some cb) old
        = if ((cb.any fun cubePos => decide (cubePos.x + 1 ≥ (gridWidth : Int)))
            || hasObjectCollided moveRightLogic cb old) = true
          then some cb else some (move moveRightLogic cb) := rfl
    rw [hred]
    split
    · exact h
    · rename_i hcond
      intro c hc
      rcases List.mem_map.mp hc with ⟨p, hp, rfl⟩
      have hbp := h p hp
      have hnb : ¬ ((cb.any fun cubePos => decide (cubePos.x + 1 ≥ (gridWidth : Int))) = true) :=
        fun hany => hcond (by rw [hany]; simp)
      rw [List.any_eq_true] at hnb
      push_neg at hnb
      have hstep := hnb p hp
      simp only [ne_eq, decide_eq_true_eq] at hstep
      obtain ⟨hbx0, hbx1, hby0, hby1⟩ := hbp
      unfold InBoundsCell moveRightLogic
      dsimp only
      omega

lemma createRotateBlockAction_inBounds (rl : BlockPosition → BlockPosition)
    (cur : Block) (old : List BlockPosition) (h : InBoundsOpt cur) :
    InBoundsOpt (createRotateBlockAction rl cur old) := by
  cases cur with
  | none => exact h
  | some cb =>
    rw [createRotateBlockAction_eq rl cb old]
    split
    · rename_i hv
      intro c hc
      exact hv.1 c hc
    · exact h

lemma clearFullRows_inBounds (blocks : List BlockPosition) (score : Nat)
    (hb : ∀ c ∈ blocks.flatten, InBoundsCell c) :
    ∀ c ∈ (clearFullRows blocks score).1.flatten, InBoundsCell c := by
  rw [flatten_clearFullRows]
  intro c hc
  rcases List.mem_map.mp hc with ⟨c', hc', rfl⟩
  have hcell := hb c' (List.mem_of_mem_filter hc')
  have hnd := findFullRows_nodup blocks
  have hmemr : ∀ r ∈ findFullRows (calculateRows blocks), r < (gridHeight : Int) :=
    fun r hr => (findFullRows_mem_range blocks r hr).2
  have hlt := shiftRow_lt_of_lt _ hnd hmemr c'.y hcell.2.2.2
  have hge := shiftRow_nonneg (findFullRows (calculateRows blocks)) c'.y hcell.2.2.1
  exact ⟨hcell.1, hcell.2.1, hge, hlt⟩

lemma createGameAction_inBounds (action : Block → List BlockPosition → Block)
    (s : GameState) (h : StateInBounds s)
    (hact : InBoundsOpt (action s.currentBlock s.oldBlocks)) :
    StateInBounds (createGameAction action s) := by
  obtain ⟨hold, hcur, hnext, hhold⟩ := h
  unfold createGameAction
  cases ha : action s.currentBlock s.oldBlocks with
  | none => exact ⟨hold, hcur, hnext, hhold⟩
  | some nb =>
    refine ⟨hold, ?_, hnext, hhold⟩
    rw [ha] at hact
    exact hact

lemma holdAction_inBounds (r1 r2 : BlockPosition) (s : GameState)
    (h : StateInBounds s) (hr1 : ∀ c ∈ r1, InBoundsCell c)
    (hr2 : ∀ c ∈ r2, InBoundsCell c) : StateInBounds (holdAction r1 r2 s) := by
  obtain ⟨hold, hcur, hnext, hhold⟩ := h
  unfold holdAction holdCurrentBlock setCurrentBlock generateBlock
  cases hc : s.currentBlock with
  | none =>
    refine ⟨hold, ?_, fun c hcm => hr2 c hcm, hhold⟩
    cases hn : s.nextBlock with
    | none => exact fun c hcm => hr1 c hcm
    | some nb =>
      rw [hn] at hnext
      exact fun c hcm => hnext c hcm
  | some cb =>
    rw [hc] at hcur
    cases hh : s.holdBlock with
    | none =>
      refine ⟨hold, ?_, fun c hcm => hr2 c hcm, fun c hcm => hcur c hcm⟩
      cases hn : s.nextBlock with
      | none => exact fun c hcm => hr1 c hcm
      | some nb =>
        rw [hn] at hnext
        exact fun c hcm => hnext c hcm
    | some hb2 =>
      rw [hh] at hhold
      exact ⟨hold, fun c hcm => hhold c hcm, hnext, fun c hcm => hcur c hcm⟩

lemma tick_inBounds (r1 r2 : BlockPosition) (s : GameState)
    (h : StateInBounds s) (hr1 : ∀ c ∈ r1, InBoundsCell c)
    (hr2 : ∀ c ∈ r2, InBoundsCell c) : StateInBounds (tick r1 r2 s) := by
  obtain ⟨hold, hcur, hnext, hhold⟩ := h
  by_cases htop : hasBlockReachedTop (clearFullRows s.oldBlocks s.score).1 = true
  · have heq : tick r1 r2 s = restartGame s := by
      unfold tick
      simp [htop]
    rw [heq]
    refine ⟨?_, ?_, ?_, ?_⟩ <;> intro c hcm <;> simp [restartGame, initialState, InBoundsOpt] at hcm
  · by_cases hland : hasBlockLanded s.currentBlock (clearFullRows s.oldBlocks s.score).1 = true
    · have heq : tick r1 r2 s = updateStateAfterLanding r1 r2 s := by
        unfold tick
        simp [htop, hland]
      rw [heq]
      unfold updateStateAfterLanding generateBlock
      refine ⟨?_, ?_, fun c hcm => hr2 c hcm, hhold⟩
      · intro c hcm
        rw [List.flatten_append] at hcm
        rcases List.mem_append.mp hcm with hcm | hcm
        · exact clearFullRows_inBounds s.oldBlocks s.score hold c hcm
        · cases hcb : s.currentBlock with
          | none =>
            rw [hcb] at hcm
            simp at hcm
          | some cb =>
            rw [hcb] at hcm hcur
            simp only [List.flatten_cons, List.flatten_nil, List.append_nil] at hcm
            exact hcur c hcm
      · cases hn : s.nextBlock with
        | none => exact fun c hcm => hr1 c hcm
        | some nb =>
          rw [hn] at hnext
          exact fun c hcm => hnext c hcm
    · have heq : tick r1 r2 s = moveCurrentBlockDown s (clearFullRows s.oldBlocks s.score).1
          (clearFullRows s.oldBlocks s.score).2 := by
        unfold tick
        simp [htop, hland]
      rw [heq]
      unfold moveCurrentBlockDown
      exact ⟨fun c hcm => clearFullRows_inBounds s.oldBlocks s.score hold c hcm,
        moveBlockDown_inBounds s.currentBlock s.oldBlocks hcur, hnext, hhold⟩

lemma reachable_stateInBounds (s : GameState) (h : Reachable s) : StateInBounds s := by
  induction h with
  | init =>
    refine ⟨?_, ?_, ?_, ?_⟩ <;> intro c hcm <;> simp [initialState, InBoundsOpt] at hcm
  | step s e r1 r2 hr hs1 hs2 ih =>
    have hb1 := spawnBlock_inBounds r1 hs1
    have hb2 := spawnBlock_inBounds r2 hs2
    cases e with
    | Left =>
      exact createGameAction_inBounds moveBlockLeft s ih
        (moveBlockLeft_inBounds s.currentBlock s.oldBlocks ih.2.1)
    | Right =>
      exact createGameAction_inBounds moveBlockRight s ih
        (moveBlockRight_inBounds s.currentBlock s.oldBlocks ih.2.1)
    | Down =>
      exact createGameAction_inBounds moveBlockDown s ih
        (moveBlockDown_inBounds s.currentBlock s.oldBlocks ih.2.1)
    | RotateClockwise =>
      exact createGameAction_inBounds rotateBlockClockwise s ih
        (createRotateBlockAction_inBounds _ s.currentBlock s.oldBlocks ih.2.1)
    | RotateAntiClockwise =>
      exact createGameAction_inBounds rotateBlockAntiClockwise s ih
        (createRotateBlockAction_inBounds _ s.currentBlock s.oldBlocks ih.2.1)
    | Hold => exact holdAction_inBounds r1 r2 s ih hb1 hb2
    | Tick => exact tick_inBounds r1 r2 s ih hb1 hb2

/-- C1 (amended): in every state reachable from the initial state every
settled cell lies within [0,10) x [0,20); the other half of the claim, that
no two settled cells coincide, fails on the code: see the counterexample. -/
theorem c1_settled_cells_in_bounds (s : GameState) (h : Reachable s) :
    ∀ c ∈ s.oldBlocks.flatten, InBoundsCell c :=
  (reachable_stateInBounds s h).1

/-- Witness for C1 at the initial state. -/
theorem c1_settled_cells_in_bounds_witness :
    Reachable initialState ∧ ∀ c ∈ initialState.oldBlocks.flatten, InBoundsCell c :=
  ⟨Reachable.init, c1_settled_cells_in_bounds initialState Reachable.init⟩

lemma reachable_runTrace (entries : List TraceEntry) :
    ∀ s : GameState, Reachable s → entries.all entryOK = true →
      Reachable (runTrace entries s) := by
  induction entries with
  | nil => exact fun s hs _ => hs
  | cons p t ih =>
    intro s hs hok
    rw [List.all_cons, Bool.and_eq_true] at hok
    have hstep : Reachable (stepEntry s p) := by
      unfold entryOK at hok
      simp only [Bool.and_eq_true, decide_eq_true_eq] at hok
      obtain ⟨⟨⟨⟨⟨ha, hb⟩, hc⟩, hd⟩, he⟩, hf⟩ := hok.1
      exact Reachable.step s p.event _ _ hs
        ⟨p.shape1, p.col1, ha, hb, hc, rfl⟩ ⟨p.shape2, p.col2, hd, he, hf, rfl⟩
    exact ih (stepEntry s p) hstep hok.2

set_option maxRecDepth 10000 in
/-- Counterexample for C1 as stated: a reachable state whose settled cells
contain the same cell position twice.  A held block keeps the position it
was holding when it was swapped out, and swapping it back in performs no
overlap check, so it can reappear inside the settled cells and be
committed there by the next Tick. -/
theorem c1_counterexample :
    Reachable (runTrace duplicateTrace initialState) ∧
      ¬ (runTrace duplicateTrace initialState).oldBlocks.flatten.Nodup :=
  ⟨reachable_runTrace duplicateTrace initialState Reachable.init (by decide), by decide⟩

/-- Witness for C10 at the initial state. -/
theorem c10_hold_refills_current_witness :
    initialState.currentBlock = none ∧
      gameActions GameEvent.Hold (generateRandomBlockShape 3 0) (generateRandomBlockShape 3 2)
          initialState
        = { initialState with
            currentBlock := some (initialState.nextBlock.getD (generateRandomBlockShape 3 0)),
            nextBlock := some (generateRandomBlockShape 3 2) } :=
  ⟨rfl, c10_hold_refills_current initialState _ _ rfl⟩

end Tetris
